import Mathlib

/-!
Shallow embedding of the entry-reading core of `rs-async-zip`
(`src/read/mod.rs`): the `ZipEntryReader` state machine
(`poll_read` / `poll_data_descriptor`), `compare_crc`,
`CompressionReader::from_reader` and `read_to_string_crc`.

Machine integers are modelled as `Nat`; a byte is a `Nat` (reduced
mod 256 where it is interpreted), a `u32` is a `Nat` below `2 ^ 32`.
The asynchronous environment (the underlying byte source) is modelled
as an oracle: a list of poll outcomes consumed one per poll.
-/

namespace AsyncZip

/-- A byte, modelled as a natural number (interpreted mod 256). -/
abbrev Byte := Nat

/-- The state of the ZIP entry reader (`enum State`, read/mod.rs lines 82-87).
`readDescriptor` and `prepareNext` carry the 16-byte descriptor buffer
(`[u8; 16]`, modelled as a length-16 list) and the fill count (`usize`). -/
inductive State where
  | readData
  | readDescriptor (buf : List Byte) (filled : Nat)
  | prepareNext (buf : List Byte) (filled : Nat)
deriving DecidableEq, Repr

/-- The mutable fields of `ZipEntryReader` (read/mod.rs lines 62-70) that the
state machine touches: the CRC32 hasher (modelled by the list of bytes fed to
it, in order), the `consumed` flag, the `state`, and `data_descriptor`. -/
structure ReaderState where
  hasher : List Byte
  consumed : Bool
  state : State
  dataDescriptor : Option (Nat × Nat × Nat)
deriving DecidableEq, Repr

/-- Outcome of one `poll_read` call on an underlying reader, as seen through a
`ReadBuf`: `ready bs` is `Poll::Ready(Ok(()))` having filled the bytes `bs`
(at most the buffer's remaining capacity is actually taken), `pending` is
`Poll::Pending`, `ioError` is `Poll::Ready(Err(_))`. -/
inductive ReadEvent where
  | ready (bs : List Byte)
  | pending
  | ioError
deriving DecidableEq, Repr

/-- Result of a `poll_read` call on the `ZipEntryReader` itself: `readyOk bs`
is `Poll::Ready(Ok(()))` with `bs` the bytes newly added to the caller's
buffer; `starved` is a model-only marker meaning the oracle event list was
exhausted while the code still had to poll (it has no Rust counterpart and is
excluded by construction in all concrete runs). -/
inductive PollResult where
  | readyOk (bs : List Byte)
  | readyErr
  | pending
  | starved
deriving DecidableEq, Repr

/-- The two flavours of `OwnedReader` (read/mod.rs lines 47-50). -/
inductive OwnedKind where
  | owned
  | borrow
deriving DecidableEq, Repr

/-- The two variants of `PrependReader` (read/mod.rs lines 33-36), each over
either flavour of `OwnedReader`. -/
inductive SourceWrapper where
  | normal (k : OwnedKind)
  | prependW (k : OwnedKind)
deriving DecidableEq, Repr

/-- Write `bs` into `buf` starting at offset `filled` (the effect of filling a
`ReadBuf` whose filled region already holds `filled` bytes). -/
def writeAt (buf : List Byte) (filled : Nat) (bs : List Byte) : List Byte :=
  buf.take filled ++ bs ++ buf.drop (filled + bs.length)

/-- Outcome of the descriptor-filling loop (read/mod.rs lines 156-180). -/
inductive DescOutcome where
  | pending (buf : List Byte) (filled : Nat) (rest : List ReadEvent)
  | done (buf : List Byte) (filled : Nat) (rest : List ReadEvent)
  | ioError (rest : List ReadEvent)
  | starved
deriving DecidableEq, Repr

/-- The loop of `poll_data_descriptor` in state `ReadDescriptor`
(read/mod.rs lines 153-182): fill the 16-byte buffer from the inner
`BufReader`, one oracle event per poll.  A `ready` event delivers at most the
remaining capacity; a `ready` event that makes no progress breaks the loop
(source exhausted), as does a full buffer. -/
def descLoop (buf : List Byte) (filled : Nat) : List ReadEvent → DescOutcome
  | [] => if 16 - filled = 0 then .done buf filled [] else .starved
  | ev :: rest =>
    if 16 - filled = 0 then .done buf filled (ev :: rest)
    else
      match ev with
      | .pending => .pending buf filled rest
      | .ioError => .ioError rest
      | .ready bs =>
        let delivered := bs.take (16 - filled)
        if delivered.isEmpty then .done buf filled rest
        else descLoop (writeAt buf filled delivered) (filled + delivered.length) rest

/-- Little-endian decoding of four bytes into a `u32` value
(`u32::from_le_bytes`). -/
def le32 (b0 b1 b2 b3 : Byte) : Nat :=
  (b0 % 256) + 256 * (b1 % 256) + 65536 * (b2 % 256) + 16777216 * (b3 % 256)

/-- Modelled from the spec: the constant `crate::spec::signature::DATA_DESCRIPTOR`
(its defining module `spec/signature.rs` is not under src/); the spec fixes the
trailing-record signature to `0x08074B50`. -/
def DATA_DESCRIPTOR : Nat := 0x08074B50

/-- Byte `i` of a buffer (indexing into the modelled `[u8; 16]`). -/
def byteAt (buf : List Byte) (i : Nat) : Byte :=
  buf.getD i 0

/-- The descriptor parse of `poll_data_descriptor` in state `PrepareNext`
(read/mod.rs lines 192-205): with exactly 16 bytes filled, read bytes 0-3 as a
little-endian signature and, when it matches `DATA_DESCRIPTOR`, yield
`(crc, compressed, uncompressed)` from bytes 4-7, 8-11 and 12-15. -/
def parseDescriptor (buf : List Byte) (filled : Nat) : Option (Nat × Nat × Nat) :=
  if filled = 16 then
    let delimiter := le32 (byteAt buf 0) (byteAt buf 1) (byteAt buf 2) (byteAt buf 3)
    let crc := le32 (byteAt buf 4) (byteAt buf 5) (byteAt buf 6) (byteAt buf 7)
    let compressed := le32 (byteAt buf 8) (byteAt buf 9) (byteAt buf 10) (byteAt buf 11)
    let uncompressed := le32 (byteAt buf 12) (byteAt buf 13) (byteAt buf 14) (byteAt buf 15)
    if delimiter = DATA_DESCRIPTOR then some (crc, compressed, uncompressed) else none
  else none

/-- Ghost trace tags, one per assignment to `self.state` in the source:
`enterDescriptor` is line 302, `enterPrepare` is line 306, `savePending` is
line 172, `finishToReadData` is the `State::ReadData` write reaching line 230
after the `PrepareNext` block ran. -/
inductive WriteTag where
  | enterDescriptor
  | enterPrepare
  | savePending
  | finishToReadData
deriving DecidableEq, Repr

/-- Result of one `poll_data_descriptor` call: the poll result, the updated
reader fields, the oracle events not yet consumed, the list of `prepend` calls
issued (each with its byte argument), and the ghost trace of state writes. -/
structure DescStepResult where
  result : PollResult
  rs : ReaderState
  rest : List ReadEvent
  prepends : List (List Byte)
  writes : List WriteTag
deriving DecidableEq, Repr

/-- The `PrepareNext` block of `poll_data_descriptor` (read/mod.rs lines
189-228): parse the descriptor; collect the give-back bytes (the unconsumed
descriptor buffer when no record was resolved, then the inner `BufReader`'s
residual buffer `residue`); issue the `prepend` only on the `Prepend` wrapper
variant; record the descriptor only when resolved; end in `ReadData`. -/
def prepareNextStep (rs : ReaderState) (buf : List Byte) (filled : Nat)
    (rest : List ReadEvent) (residue : List Byte) (wrapper : SourceWrapper) :
    DescStepResult :=
  let descriptor := parseDescriptor buf filled
  let giveBack := (if descriptor.isNone then buf.take filled else []) ++ residue
  let prepends := match wrapper with
    | .prependW _ => [giveBack]
    | .normal _ => []
  let rs' := { rs with
    state := .readData,
    dataDescriptor := if descriptor.isSome then descriptor else rs.dataDescriptor }
  ⟨.readyOk [], rs', rest, prepends, [.finishToReadData]⟩

/-- `ZipEntryReader::poll_data_descriptor` (read/mod.rs lines 142-233).
In `ReadData` it is a no-op; in `ReadDescriptor` it runs the filling loop
(writing the partially filled buffer back into the state on `Pending`, and
leaving the state untouched on an I/O error); on completion, and in
`PrepareNext`, it runs the `PrepareNext` block. -/
def pollDataDescriptor (rs : ReaderState) (evs : List ReadEvent)
    (residue : List Byte) (wrapper : SourceWrapper) : DescStepResult :=
  match rs.state with
  | .readData => ⟨.readyOk [], rs, evs, [], []⟩
  | .readDescriptor buf filled =>
    match descLoop buf filled evs with
    | .pending buf' filled' rest =>
      ⟨.pending, { rs with state := .readDescriptor buf' filled' }, rest, [], [.savePending]⟩
    | .ioError rest => ⟨.readyErr, rs, rest, [], []⟩
    | .starved => ⟨.starved, rs, [], [], []⟩
    | .done buf' filled' rest => prepareNextStep rs buf' filled' rest residue wrapper
  | .prepareNext buf filled => prepareNextStep rs buf filled evs residue wrapper

/-- The whole mutable world one `ZipEntryReader` step acts on: the immutable
configuration (`flag` is `meta.general_purpose_flag.data_descriptor`,
`wrapper` the `PrependReader` variant, `residue` the inner `BufReader`'s
buffered bytes as observed at `PrepareNext` time), the reader fields, the two
poll oracles (decompressed-data polls and descriptor polls), and the log of
`prepend` calls issued so far. -/
structure World where
  flag : Bool
  wrapper : SourceWrapper
  residue : List Byte
  rs : ReaderState
  dataEvents : List ReadEvent
  descEvents : List ReadEvent
  prependLog : List (List Byte)
deriving DecidableEq, Repr

/-- Result of one `poll_read` call on the `ZipEntryReader`. -/
structure StepResult where
  result : PollResult
  world : World
  writes : List WriteTag
deriving DecidableEq, Repr

/-- Merge a `poll_data_descriptor` result back into the world. -/
def applyDesc (w : World) (extra : List WriteTag) (d : DescStepResult) : StepResult :=
  ⟨d.result,
    { w with rs := d.rs, descEvents := d.rest, prependLog := w.prependLog ++ d.prepends },
    extra ++ d.writes⟩

/-- `<ZipEntryReader as AsyncRead>::poll_read` (read/mod.rs lines 284-321).
In `ReadData` it polls the decompression pipeline (one data-oracle event);
errors and `Pending` propagate; with fresh bytes the hasher is updated; with
zero bytes `consumed` is set and, when `data_descriptor` is unresolved and the
flag is set, the state moves to `ReadDescriptor` (line 302), else when this is
the first observation it moves to `PrepareNext` (line 306), else the zero-byte
result is returned as-is; any state other than `ReadData` delegates to
`poll_data_descriptor`. -/
def pollRead (w : World) : StepResult :=
  match w.rs.state with
  | .readData =>
    match w.dataEvents with
    | [] => ⟨.starved, w, []⟩
    | ev :: rest =>
      let w := { w with dataEvents := rest }
      match ev with
      | .ioError => ⟨.readyErr, w, []⟩
      | .pending => ⟨.pending, w, []⟩
      | .ready bs =>
        if bs.isEmpty then
          let rs := { w.rs with consumed := true }
          if rs.dataDescriptor.isNone && w.flag then
            let rs := { rs with state := .readDescriptor (List.replicate 16 0) 0 }
            applyDesc { w with rs := rs } [.enterDescriptor]
              (pollDataDescriptor rs w.descEvents w.residue w.wrapper)
          else if !w.rs.consumed then
            let rs := { rs with state := .prepareNext (List.replicate 16 0) 0 }
            applyDesc { w with rs := rs } [.enterPrepare]
              (pollDataDescriptor rs w.descEvents w.residue w.wrapper)
          else
            ⟨.readyOk [], { w with rs := rs }, []⟩
        else
          ⟨.readyOk bs, { w with rs := { w.rs with hasher := w.rs.hasher ++ bs } }, []⟩
  | _ => applyDesc w [] (pollDataDescriptor w.rs w.descEvents w.residue w.wrapper)

/-- Run `n` successive `poll_read` calls, collecting the ghost trace of state
writes across all of them. -/
def runWrites : Nat → World → List WriteTag
  | 0, _ => []
  | n + 1, w =>
    let s := pollRead w
    s.writes ++ runWrites n s.world

/-- Run `n` successive `poll_read` calls, returning the final world. -/
def runWorld : Nat → World → World
  | 0, w => w
  | n + 1, w => runWorld n (pollRead w).world

/-- The bytes a `poll_read` result delivered to the caller. -/
def producedBytes : PollResult → List Byte
  | .readyOk bs => bs
  | _ => []

/-- Modelled from the spec: one bit step of the reflected CRC-32 used by the
checksum accumulator (the `crc32fast` crate is an external collaborator; the
spec names the check CRC32). -/
def crc32Bit (c : Nat) : Nat :=
  if c % 2 = 1 then (c / 2) ^^^ 0xEDB88320 else c / 2

/-- Modelled from the spec: absorb one byte into the CRC-32 state. -/
def crc32Byte (c : Nat) (b : Byte) : Nat :=
  (List.range 8).foldl (fun acc _ => crc32Bit acc) (c ^^^ (b % 256))

/-- Modelled from the spec: the CRC32 checksum of a byte sequence, the value
`Hasher::finalize` returns after the hasher absorbed exactly those bytes. -/
def crc32 (bs : List Byte) : Nat :=
  0xFFFFFFFF ^^^ bs.foldl crc32Byte 0xFFFFFFFF

/-- `ZipEntryReader::compare_crc` (read/mod.rs lines 119-128): take the hasher
(leaving it empty), finalize it, and compare against the trailing record's
checksum when the data-descriptor flag is set, else against the entry's
declared CRC32.  `none` models the panic of
`self.data_descriptor.expect("Data descriptor was not read")`. -/
def compare_crc (flag : Bool) (entryCrc32 : Nat) (rs : ReaderState) :
    Option (Bool × ReaderState) :=
  let rs' := { rs with hasher := [] }
  let finalCrc := crc32 rs.hasher
  if flag then
    match rs.dataDescriptor with
    | some d => some (d.1 == finalCrc, rs')
    | none => none
  else
    some (entryCrc32 == finalCrc, rs')

/-- The compression methods of `crate::spec::compression::Compression` that
`CompressionReader::from_reader` matches on (read/mod.rs lines 393-409), all
features enabled. -/
inductive Compression where
  | stored
  | deflate
  | bz
  | lzma
  | zstd
  | xz
deriving DecidableEq, Repr

/-- The error variants of `crate::error::ZipError` this development touches. -/
inductive ZipError where
  | crc32CheckError
  | missingCompressedSize
  | stringDecodeError
deriving DecidableEq, Repr

/-- The variants of `CompressionReader` (read/mod.rs lines 342-354); `storedR`
carries the `Take` limit. -/
inductive CompressionReaderShape where
  | storedR (limit : Nat)
  | deflateR
  | bzR
  | lzmaR
  | zstdR
  | xzR
deriving DecidableEq, Repr

/-- `CompressionReader::from_reader` (read/mod.rs lines 392-410): the Stored
method demands a declared size (`take.ok_or(ZipError::MissingCompressedSize)?`)
and wraps the reader in a `Take` with that limit; every other method wraps the
reader in its decoder, needing no size. -/
def from_reader (compression : Compression) (take : Option Nat) :
    Except ZipError CompressionReaderShape :=
  match compression with
  | .stored =>
    match take with
    | some n => .ok (.storedR n)
    | none => .error .missingCompressedSize
  | .deflate => .ok .deflateR
  | .bz => .ok .bzR
  | .lzma => .ok .lzmaR
  | .zstd => .ok .zstdR
  | .xz => .ok .xzR

/-- Modelled from the spec: the read behaviour of tokio's `Take` wrapper that
`CompressionReader::Stored` uses — a pass-through limited to exactly the
declared byte count.  `takeRun limit chunks` is the total output over a
sequence of source reads delivering `chunks`. -/
def takeRun : Nat → List (List Byte) → List Byte
  | _, [] => []
  | limit, c :: cs =>
    let d := c.take limit
    d ++ takeRun (limit - d.length) cs

/-- Is `b` a UTF-8 continuation byte (0x80-0xBF)? -/
def utf8Cont (b : Byte) : Bool :=
  decide (0x80 ≤ b) && decide (b ≤ 0xBF)

/-- Modelled from the spec: UTF-8 validity of a byte sequence, the text
decoding `read_to_string` performs (std/tokio are external collaborators; the
spec says the bytes are interpreted as text, failing on invalid encoding). -/
def utf8Valid : List Byte → Bool
  | [] => true
  | b :: rest =>
    if b ≤ 0x7F then utf8Valid rest
    else if 0xC2 ≤ b && b ≤ 0xDF then
      match rest with
      | c :: r => utf8Cont c && utf8Valid r
      | [] => false
    else if 0xE0 ≤ b && b ≤ 0xEF then
      match rest with
      | c1 :: c2 :: r =>
        (if b = 0xE0 then decide (0xA0 ≤ c1) && decide (c1 ≤ 0xBF)
         else if b = 0xED then decide (0x80 ≤ c1) && decide (c1 ≤ 0x9F)
         else utf8Cont c1) && utf8Cont c2 && utf8Valid r
      | _ => false
    else if 0xF0 ≤ b && b ≤ 0xF4 then
      match rest with
      | c1 :: c2 :: c3 :: r =>
        (if b = 0xF0 then decide (0x90 ≤ c1) && decide (c1 ≤ 0xBF)
         else if b = 0xF4 then decide (0x80 ≤ c1) && decide (c1 ≤ 0x8F)
         else utf8Cont c1) && utf8Cont c2 && utf8Cont c3 && utf8Valid r
      | _ => false
    else false

/-- `ZipEntryReader::read_to_string_crc` (read/mod.rs lines 252-261) after the
reader has been driven to end-of-data: `bytes` are the decompressed bytes the
reads produced (hence exactly the bytes the hasher absorbed), `dd` the
data-descriptor resolved by the state machine, `flag` and `entryCrc32` the
entry configuration.  `read_to_string` fails first on invalid text (the `?` on
line 254 returns before `compare_crc` runs); otherwise `compare_crc` decides
between the string and `ZipError::CRC32CheckError`.  The outer `none` models
the `compare_crc` panic. -/
def read_to_string_crc (flag : Bool) (entryCrc32 : Nat)
    (dd : Option (Nat × Nat × Nat)) (bytes : List Byte) :
    Option (Except ZipError (List Byte)) :=
  if utf8Valid bytes then
    match compare_crc flag entryCrc32
        ⟨bytes, true, .readData, dd⟩ with
    | none => none
    | some (true, _) => some (.ok bytes)
    | some (false, _) => some (.error .crc32CheckError)
  else
    some (.error .stringDecodeError)

/-- A freshly constructed reader (`from_raw`, read/mod.rs lines 91-106) over a
flagged entry (`general_purpose_flag.data_descriptor = true`), on an owned
prepend-capable source that is already exhausted: every pipeline poll returns
zero bytes and every descriptor poll returns zero bytes, so the trailing
record never resolves. -/
def c1World : World :=
  ⟨true, .prependW .owned, [],
    ⟨[], false, .readData, none⟩,
    [.ready [], .ready []],
    [.ready [], .ready []],
    []⟩

/-- A reader over a flagged entry that has already observed end-of-data once
(`consumed = true`) with its trailing record unresolved — exactly the reader
state `c1World` reaches after its first `poll_read` call — polled once more at
end-of-data. -/
def c2World : World :=
  ⟨true, .prependW .owned, [],
    ⟨[], true, .readData, none⟩,
    [.ready []],
    [.ready []],
    []⟩

/-- A reader suspended mid-descriptor-read (state `ReadDescriptor`), with one
byte already fed to the hasher, used to observe a descriptor-state poll. -/
def c7World : World :=
  ⟨true, .prependW .owned, [4],
    ⟨[1], true, .readDescriptor (List.replicate 16 0) 0, none⟩,
    [],
    [.ready []],
    []⟩

end AsyncZip

namespace AsyncZip

/-- C1: the claim says the reader state transitions along the cycle
`ReadData → ReadDescriptor → PrepareNext → ReadData` at most once per reader
instance, including repeated end-of-data polls on a flagged entry whose
descriptor was not resolved.  The code violates this: on `c1World` (flagged
entry, descriptor never resolves), two `poll_read` calls after end-of-data
each run the full cycle — the `ReadData → ReadDescriptor` transition of
read/mod.rs line 302 fires twice because the zero-byte branch tests
`data_descriptor.is_none() && flag` before `was_consumed`. -/
theorem c1_cycle_repeats :
    runWrites 2 c1World =
      [.enterDescriptor, .finishToReadData, .enterDescriptor, .finishToReadData] ∧
    (runWrites 2 c1World).count .enterDescriptor = 2 := by
  decide

/-- C2: the claim says a zero-byte `poll_read` in state `ReadData` with
`consumed` already true returns the zero-byte result as-is with no
state-machine work, regardless of the data-descriptor flag.  The code violates
this on `c2World` (flag set, descriptor unresolved, `consumed` already true):
the call writes the state twice (entering `ReadDescriptor` and finishing back
to `ReadData`) and issues a `prepend` call, instead of doing nothing. -/
theorem c2_state_work_after_second_eof :
    (pollRead c2World).writes = [.enterDescriptor, .finishToReadData] ∧
    (pollRead c2World).writes ≠ [] ∧
    (pollRead c2World).world.prependLog = [[]] := by
  decide

/-- Helper: `pollDataDescriptor` on a reader in state `PrepareNext` runs
exactly the `PrepareNext` block. -/
theorem pollDataDescriptor_prepareNext (hs : List Byte) (cn : Bool)
    (dd : Option (Nat × Nat × Nat)) (buf : List Byte) (filled : Nat)
    (evs : List ReadEvent) (residue : List Byte) (wrapper : SourceWrapper) :
    pollDataDescriptor ⟨hs, cn, .prepareNext buf filled, dd⟩ evs residue wrapper =
      prepareNextStep ⟨hs, cn, .prepareNext buf filled, dd⟩ buf filled evs residue wrapper := by
  rfl

/-- C3 counterexample: the claim requires that the `PrepareNext` step issues
exactly one prepend call for every reader, but a reader over the `Normal`
wrapper variant issues none — here with five unresolved descriptor bytes and a
two-byte `BufReader` residue to give back, the prepend log stays empty. -/
theorem c3_normal_variant_no_giveback :
    (pollDataDescriptor ⟨[], true, .prepareNext (List.replicate 16 0) 5, none⟩
        [] [1, 2] (.normal .owned)).prepends = [] ∧
    (pollDataDescriptor ⟨[], true, .prepareNext (List.replicate 16 0) 5, none⟩
        [] [1, 2] (.normal .owned)).prepends.length ≠ 1 := by
  decide

/-- C3 (amended): in the `PrepareNext` step of a reader whose source wrapper
is the `Prepend` variant, exactly one prepend call is issued, its bytes being
the captured descriptor buffer up to `filled` when no trailing record was
resolved (nothing from it when one was) followed by the `BufReader`'s residual
bytes, and the state then becomes `ReadData`. -/
theorem c3_prepareNext_giveback (rs : ReaderState) (buf : List Byte)
    (filled : Nat) (evs : List ReadEvent) (residue : List Byte) (k : OwnedKind)
    (h : rs.state = .prepareNext buf filled) :
    (pollDataDescriptor rs evs residue (.prependW k)).prepends =
      [(if (parseDescriptor buf filled).isNone then buf.take filled else []) ++ residue] ∧
    (pollDataDescriptor rs evs residue (.prependW k)).rs.state = .readData ∧
    (pollDataDescriptor rs evs residue (.prependW k)).rest = evs := by
  rcases rs with ⟨hs, cn, st, dd⟩
  cases h
  simp [pollDataDescriptor_prepareNext, prepareNextStep]

/-- Witness for `c3_prepareNext_giveback` at a concrete reader: five
unresolved descriptor bytes and residue `[9, 9]` are handed back in one
prepend call. -/
theorem c3_prepareNext_giveback_witness :
    (pollDataDescriptor ⟨[], true, .prepareNext (List.replicate 16 0) 5, none⟩
        [] [9, 9] (.prependW .owned)).prepends = [[0, 0, 0, 0, 0, 9, 9]] :=
  (c3_prepareNext_giveback ⟨[], true, .prepareNext (List.replicate 16 0) 5, none⟩
      (List.replicate 16 0) 5 [] [9, 9] .owned rfl).1.trans (by decide)

/-- C10: in the `PrepareNext` step, a reader over the `Normal` wrapper variant
issues no prepend call — the reconciliation bytes are silently discarded —
while both the `Owned` and `Borrow` flavours of the `Prepend` variant issue
the one prepend call carrying them; the state becomes `ReadData` either way. -/
theorem c10_normal_discards (rs : ReaderState) (buf : List Byte)
    (filled : Nat) (evs : List ReadEvent) (residue : List Byte) (k : OwnedKind)
    (h : rs.state = .prepareNext buf filled) :
    (pollDataDescriptor rs evs residue (.normal k)).prepends = [] ∧
    (pollDataDescriptor rs evs residue (.prependW k)).prepends =
      [(if (parseDescriptor buf filled).isNone then buf.take filled else []) ++ residue] ∧
    (pollDataDescriptor rs evs residue (.normal k)).rs.state = .readData := by
  rcases rs with ⟨hs, cn, st, dd⟩
  cases h
  simp [pollDataDescriptor_prepareNext, prepareNextStep]

/-- Witness for `c10_normal_discards`: with the `Borrow` flavours, the
`Normal` wrapper discards the seven reconciliation bytes and the `Prepend`
wrapper hands them back. -/
theorem c10_normal_discards_witness :
    (pollDataDescriptor ⟨[], true, .prepareNext (List.replicate 16 0) 5, none⟩
        [] [9, 9] (.normal .borrow)).prepends = [] ∧
    (pollDataDescriptor ⟨[], true, .prepareNext (List.replicate 16 0) 5, none⟩
        [] [9, 9] (.prependW .borrow)).prepends = [[0, 0, 0, 0, 0, 9, 9]] := by
  have h := c10_normal_discards ⟨[], true, .prepareNext (List.replicate 16 0) 5, none⟩
    (List.replicate 16 0) 5 [] [9, 9] .borrow rfl
  exact ⟨h.1, h.2.1.trans (by decide)⟩

/-- Helper: characterisation of the descriptor parse — a record comes out iff
exactly 16 bytes were filled and bytes 0-3 little-endian equal the signature,
and its fields are the little-endian words at bytes 4-7, 8-11 and 12-15. -/
theorem parseDescriptor_char (buf : List Byte) (filled : Nat) :
    ((parseDescriptor buf filled).isSome ↔
      filled = 16 ∧
        le32 (byteAt buf 0) (byteAt buf 1) (byteAt buf 2) (byteAt buf 3) = DATA_DESCRIPTOR) ∧
    (∀ crc comp uncomp, parseDescriptor buf filled = some (crc, comp, uncomp) →
      crc = le32 (byteAt buf 4) (byteAt buf 5) (byteAt buf 6) (byteAt buf 7) ∧
      comp = le32 (byteAt buf 8) (byteAt buf 9) (byteAt buf 10) (byteAt buf 11) ∧
      uncomp = le32 (byteAt buf 12) (byteAt buf 13) (byteAt buf 14) (byteAt buf 15)) := by
  unfold parseDescriptor
  by_cases h16 : filled = 16 <;> simp [h16]
  by_cases hsig :
      le32 (byteAt buf 0) (byteAt buf 1) (byteAt buf 2) (byteAt buf 3) = DATA_DESCRIPTOR <;>
    simp [hsig]

/-- Helper: in the `PrepareNext` block of a reader whose descriptor is still
unresolved, the descriptor field afterwards equals the parse of the captured
buffer (line 221-223 assigns it only when resolved, and it was `none`). -/
theorem pollDataDescriptor_resolves (hs : List Byte) (cn : Bool)
    (buf : List Byte) (filled : Nat) (evs : List ReadEvent) (residue : List Byte)
    (wrapper : SourceWrapper) :
    (pollDataDescriptor ⟨hs, cn, .prepareNext buf filled, none⟩
        evs residue wrapper).rs.dataDescriptor = parseDescriptor buf filled := by
  rw [pollDataDescriptor_prepareNext]
  unfold prepareNextStep
  cases h : parseDescriptor buf filled <;> simp [h]

/-- C5: in the `PrepareNext` step (descriptor still unresolved), a trailing
record is resolved iff exactly 16 bytes were filled and bytes 0-3 as a
little-endian u32 equal `DATA_DESCRIPTOR = 0x08074B50`; when resolved, its
checksum is bytes 4-7, compressed size bytes 8-11 and uncompressed size bytes
12-15, each little-endian; otherwise no record is resolved. -/
theorem c5_descriptor_resolution (rs : ReaderState) (buf : List Byte)
    (filled : Nat) (evs : List ReadEvent) (residue : List Byte)
    (wrapper : SourceWrapper) (h : rs.state = .prepareNext buf filled)
    (h0 : rs.dataDescriptor = none) :
    ((pollDataDescriptor rs evs residue wrapper).rs.dataDescriptor.isSome ↔
      filled = 16 ∧
        le32 (byteAt buf 0) (byteAt buf 1) (byteAt buf 2) (byteAt buf 3) = DATA_DESCRIPTOR) ∧
    (∀ crc comp uncomp,
      (pollDataDescriptor rs evs residue wrapper).rs.dataDescriptor =
          some (crc, comp, uncomp) →
      crc = le32 (byteAt buf 4) (byteAt buf 5) (byteAt buf 6) (byteAt buf 7) ∧
      comp = le32 (byteAt buf 8) (byteAt buf 9) (byteAt buf 10) (byteAt buf 11) ∧
      uncomp = le32 (byteAt buf 12) (byteAt buf 13) (byteAt buf 14) (byteAt buf 15)) := by
  rcases rs with ⟨hs, cn, st, dd⟩
  cases h
  cases h0
  rw [pollDataDescriptor_resolves]
  exact parseDescriptor_char buf filled

/-- Witness for `c5_descriptor_resolution` at a concrete 16-byte buffer whose
first four bytes are the little-endian signature `50 4B 07 08`: the record
resolves. -/
theorem c5_descriptor_resolution_witness :
    (pollDataDescriptor
        ⟨[], true,
          .prepareNext [0x50, 0x4B, 0x07, 0x08, 1, 0, 0, 0, 2, 0, 0, 0, 3, 0, 0, 0] 16,
          none⟩ [] [] (.prependW .owned)).rs.dataDescriptor.isSome :=
  (c5_descriptor_resolution
      ⟨[], true,
        .prepareNext [0x50, 0x4B, 0x07, 0x08, 1, 0, 0, 0, 2, 0, 0, 0, 3, 0, 0, 0] 16,
        none⟩
      [0x50, 0x4B, 0x07, 0x08, 1, 0, 0, 0, 2, 0, 0, 0, 3, 0, 0, 0] 16 [] []
      (.prependW .owned) rfl rfl).1.mpr (by decide)

/-- C4: `compare_crc` panics (models to `none`) iff the data-descriptor flag
is set and no trailing record was resolved; otherwise it empties the hasher
and returns true iff the finalized checksum equals the resolved record's
checksum (flag set) or the entry's declared CRC32 (flag unset). -/
theorem c4_compare_crc_spec (flag : Bool) (entryCrc : Nat) (rs : ReaderState) :
    (compare_crc flag entryCrc rs = none ↔ flag = true ∧ rs.dataDescriptor = none) ∧
    (flag = true → ∀ d, rs.dataDescriptor = some d →
      compare_crc flag entryCrc rs =
          some (d.1 == crc32 rs.hasher, { rs with hasher := [] }) ∧
        ((d.1 == crc32 rs.hasher) = true ↔ d.1 = crc32 rs.hasher)) ∧
    (flag = false →
      compare_crc flag entryCrc rs =
          some (entryCrc == crc32 rs.hasher, { rs with hasher := [] }) ∧
        ((entryCrc == crc32 rs.hasher) = true ↔ entryCrc = crc32 rs.hasher)) := by
  rcases rs with ⟨hs, cn, st, dd⟩
  refine ⟨?_, ?_, ?_⟩
  · cases flag <;> cases dd <;> simp [compare_crc]
  · rintro rfl d hd
    cases hd
    simp [compare_crc, beq_iff_eq]
  · rintro rfl
    simp [compare_crc, beq_iff_eq]

/-- Witness for `c4_compare_crc_spec`: with the flag set and no resolved
record, `compare_crc` hits its precondition violation. -/
theorem c4_compare_crc_spec_witness :
    compare_crc true 0 ⟨[], true, .readData, none⟩ = none :=
  (c4_compare_crc_spec true 0 ⟨[], true, .readData, none⟩).1.mpr ⟨rfl, rfl⟩

/-- Helper: when the descriptor-filling loop suspends, the events it consumed
are a prefix `p` followed by the `pending` event, and restarting the loop from
the saved `(buf, filled)` behaves on any further events exactly like the
original loop would have with the `pending` event deleted — the suspension is
transparent. -/
theorem descLoop_pending_resume (evs : List ReadEvent) :
    ∀ buf filled buf' filled' rest,
      descLoop buf filled evs = .pending buf' filled' rest →
      ∃ p, evs = p ++ .pending :: rest ∧
        ∀ evs₂, descLoop buf filled (p ++ evs₂) = descLoop buf' filled' evs₂ := by
  induction evs with
  | nil =>
    intro buf filled buf' filled' rest h
    unfold descLoop at h
    split at h <;> simp_all
  | cons ev tail ih =>
    intro buf filled buf' filled' rest h
    by_cases h16 : 16 - filled = 0
    · simp [descLoop, h16] at h
    · cases ev with
      | pending =>
        simp [descLoop, h16] at h
        obtain ⟨hb, hf, hr⟩ := h
        subst hb
        subst hf
        subst hr
        exact ⟨[], rfl, fun evs₂ => rfl⟩
      | ioError => simp [descLoop, h16] at h
      | ready bs =>
        by_cases hd : (bs.take (16 - filled)).isEmpty
        · simp [descLoop, h16, hd] at h
        · have h' : descLoop (writeAt buf filled (bs.take (16 - filled)))
              (filled + (bs.take (16 - filled)).length) tail =
              .pending buf' filled' rest := by
            simpa [descLoop, h16, hd] using h
          obtain ⟨p₀, hp₀, hres⟩ := ih _ _ _ _ _ h'
          refine ⟨.ready bs :: p₀, by simp [hp₀], ?_⟩
          intro evs₂
          have hstep : descLoop buf filled (.ready bs :: (p₀ ++ evs₂)) =
              descLoop (writeAt buf filled (bs.take (16 - filled)))
                (filled + (bs.take (16 - filled)).length) (p₀ ++ evs₂) := by
            simp [descLoop, h16, hd]
          simpa [hstep] using hres evs₂

/-- C6: when the descriptor read suspends, the partially filled buffer and its
updated fill count are written back into the reader state before `Pending` is
returned, and resuming from that saved state on the remaining events behaves
exactly like the uninterrupted read (the `pending` event deleted) — the
resumed call continues at the saved offset instead of restarting at byte
zero. -/
theorem c6_pending_writeback (rs : ReaderState) (buf : List Byte) (filled : Nat)
    (evs : List ReadEvent) (residue : List Byte) (wrapper : SourceWrapper)
    (buf' : List Byte) (filled' : Nat) (rest : List ReadEvent)
    (hs : rs.state = .readDescriptor buf filled)
    (hp : descLoop buf filled evs = .pending buf' filled' rest) :
    (pollDataDescriptor rs evs residue wrapper).result = .pending ∧
    (pollDataDescriptor rs evs residue wrapper).rs =
      { rs with state := .readDescriptor buf' filled' } ∧
    (pollDataDescriptor rs evs residue wrapper).rest = rest ∧
    ∃ p, evs = p ++ .pending :: rest ∧
      ∀ evs₂, descLoop buf filled (p ++ evs₂) = descLoop buf' filled' evs₂ := by
  rcases rs with ⟨hsh, cn, st, dd⟩
  cases hs
  exact ⟨by simp [pollDataDescriptor, hp], by simp [pollDataDescriptor, hp],
    by simp [pollDataDescriptor, hp], descLoop_pending_resume evs buf filled buf' filled' rest hp⟩

/-- Witness for `c6_pending_writeback`: two bytes arrive, then the source
suspends; the saved state holds those two bytes at offset 2 and the leftover
event remains for the resumed call. -/
theorem c6_pending_writeback_witness :
    (pollDataDescriptor ⟨[], true, .readDescriptor (List.replicate 16 0) 0, none⟩
        [.ready [5, 6], .pending, .ready [7]] [] (.prependW .owned)).result = .pending ∧
    (pollDataDescriptor ⟨[], true, .readDescriptor (List.replicate 16 0) 0, none⟩
        [.ready [5, 6], .pending, .ready [7]] [] (.prependW .owned)).rs =
      ⟨[], true, .readDescriptor [5, 6, 0, 0, 0, 0, 0, 0, 0, 0, 0, 0, 0, 0, 0, 0] 2, none⟩ ∧
    (pollDataDescriptor ⟨[], true, .readDescriptor (List.replicate 16 0) 0, none⟩
        [.ready [5, 6], .pending, .ready [7]] [] (.prependW .owned)).rest = [.ready [7]] := by
  have h := c6_pending_writeback
    ⟨[], true, .readDescriptor (List.replicate 16 0) 0, none⟩
    (List.replicate 16 0) 0 [.ready [5, 6], .pending, .ready [7]] [] (.prependW .owned)
    [5, 6, 0, 0, 0, 0, 0, 0, 0, 0, 0, 0, 0, 0, 0, 0] 2 [.ready [7]] rfl (by decide)
  exact ⟨h.1, h.2.1.trans (by decide), h.2.2.1⟩

/-- Helper: `poll_data_descriptor` never touches the hasher. -/
theorem pollDataDescriptor_hasher (rs : ReaderState) (evs : List ReadEvent)
    (residue : List Byte) (wrapper : SourceWrapper) :
    (pollDataDescriptor rs evs residue wrapper).rs.hasher = rs.hasher := by
  rcases rs with ⟨hs, cn, st, dd⟩
  cases st with
  | readData => rfl
  | readDescriptor buf filled =>
    simp only [pollDataDescriptor]
    rcases h : descLoop buf filled evs with ⟨b, f, r⟩ | ⟨b, f, r⟩ | r | _ <;>
      simp [prepareNextStep]
  | prepareNext buf filled => simp [pollDataDescriptor, prepareNextStep]

/-- Helper: `poll_data_descriptor` never adds bytes to the caller's buffer. -/
theorem pollDataDescriptor_produced (rs : ReaderState) (evs : List ReadEvent)
    (residue : List Byte) (wrapper : SourceWrapper) :
    producedBytes (pollDataDescriptor rs evs residue wrapper).result = [] := by
  rcases rs with ⟨hs, cn, st, dd⟩
  cases st with
  | readData => rfl
  | readDescriptor buf filled =>
    simp only [pollDataDescriptor]
    rcases h : descLoop buf filled evs with ⟨b, f, r⟩ | ⟨b, f, r⟩ | r | _ <;>
      simp [prepareNextStep, producedBytes]
  | prepareNext buf filled => simp [pollDataDescriptor, prepareNextStep, producedBytes]

/-- C7: on every `poll_read` call, the hasher is extended with exactly the
bytes that call hands to the caller — a `ReadData` poll producing `n > 0`
bytes feeds precisely those bytes, and zero-byte polls, error or pending
polls, and descriptor-state polls feed nothing. -/
theorem c7_hasher_exact (w : World) :
    ((pollRead w).world.rs.hasher =
      w.rs.hasher ++ producedBytes (pollRead w).result) ∧
    (w.rs.state ≠ .readData →
      (pollRead w).world.rs.hasher = w.rs.hasher ∧
      producedBytes (pollRead w).result = []) := by
  rcases w with ⟨flag, wrapper, residue, ⟨hs, cn, st, dd⟩, dataEvents, descEvents, prependLog⟩
  refine ⟨?_, ?_⟩
  · cases st with
    | readDescriptor buf filled =>
      simp [pollRead, applyDesc, pollDataDescriptor_hasher, pollDataDescriptor_produced]
    | prepareNext buf filled =>
      simp [pollRead, applyDesc, pollDataDescriptor_hasher, pollDataDescriptor_produced]
    | readData =>
      cases dataEvents with
      | nil => simp [pollRead, producedBytes]
      | cons ev rest =>
        cases ev with
        | ioError => simp [pollRead, producedBytes]
        | pending => simp [pollRead, producedBytes]
        | ready bs =>
          by_cases hb : bs.isEmpty
          · simp [pollRead, hb]
            split
            · simp [applyDesc, pollDataDescriptor_hasher, pollDataDescriptor_produced]
            · split
              · simp [applyDesc, pollDataDescriptor_hasher, pollDataDescriptor_produced]
              · simp [producedBytes]
          · simp [pollRead, hb, producedBytes]
  · intro hst
    cases st with
    | readData => exact absurd rfl hst
    | readDescriptor buf filled =>
      exact ⟨by simp [pollRead, applyDesc, pollDataDescriptor_hasher],
        by simp [pollRead, applyDesc, pollDataDescriptor_produced]⟩
    | prepareNext buf filled =>
      exact ⟨by simp [pollRead, applyDesc, pollDataDescriptor_hasher],
        by simp [pollRead, applyDesc, pollDataDescriptor_produced]⟩

/-- Witness for `c7_hasher_exact` at the descriptor-state world `c7World`:
the poll feeds the hasher nothing and hands the caller no bytes. -/
theorem c7_hasher_exact_witness :
    (pollRead c7World).world.rs.hasher = c7World.rs.hasher ∧
    producedBytes (pollRead c7World).result = [] :=
  (c7_hasher_exact c7World).2 (by decide)

/-- Helper: the `Take` pass-through delivers, over any fragmentation of the
source into chunks, exactly the first `limit` bytes of the source. -/
theorem takeRun_eq_take (chunks : List (List Byte)) :
    ∀ limit, takeRun limit chunks = chunks.flatten.take limit := by
  induction chunks with
  | nil => intro limit; simp [takeRun]
  | cons c cs ih =>
    intro limit
    have hmin : limit - min limit c.length = limit - c.length := by omega
    simp [takeRun, List.take_append_eq_append_take, ih, List.length_take, hmin]

/-- C8: constructing the decompression pipeline with the Stored method and no
declared size fails with `MissingCompressedSize`; with a declared size it
yields the `Take`-limited pass-through (which outputs exactly the first
`limit` source bytes under any chunking); every other method constructs
without a declared size. -/
theorem c8_from_reader_spec :
    from_reader .stored none = .error .missingCompressedSize ∧
    (∀ n, from_reader .stored (some n) = .ok (.storedR n)) ∧
    (∀ limit chunks, takeRun limit chunks = chunks.flatten.take limit) ∧
    from_reader .deflate none = .ok .deflateR ∧
    from_reader .bz none = .ok .bzR ∧
    from_reader .lzma none = .ok .lzmaR ∧
    from_reader .zstd none = .ok .zstdR ∧
    from_reader .xz none = .ok .xzR :=
  ⟨rfl, fun _ => rfl, fun limit chunks => takeRun_eq_take chunks limit,
    rfl, rfl, rfl, rfl, rfl⟩

/-- C9: `read_to_string_crc` surfaces the text-decoding error before the
integrity check — for invalid bytes the result is the decoding error whatever
the expected checksum or descriptor state (in particular no CRC error and no
descriptor panic); for valid text it returns the bytes iff the checksum
matches the authoritative value (entry CRC when the flag is unset, resolved
record checksum when set), and the CRC-mismatch error otherwise. -/
theorem c9_read_to_string_order (flag : Bool) (entryCrc : Nat)
    (dd : Option (Nat × Nat × Nat)) (bytes : List Byte) :
    (utf8Valid bytes = false →
      read_to_string_crc flag entryCrc dd bytes = some (.error .stringDecodeError)) ∧
    (utf8Valid bytes = true → flag = false →
      read_to_string_crc flag entryCrc dd bytes =
        if entryCrc = crc32 bytes then some (.ok bytes)
        else some (.error .crc32CheckError)) ∧
    (utf8Valid bytes = true → ∀ d, flag = true → dd = some d →
      read_to_string_crc flag entryCrc dd bytes =
        if d.1 = crc32 bytes then some (.ok bytes)
        else some (.error .crc32CheckError)) := by
  refine ⟨?_, ?_, ?_⟩
  · intro hv
    simp [read_to_string_crc, hv]
  · rintro hv rfl
    by_cases hc : entryCrc = crc32 bytes
    · simp [read_to_string_crc, hv, compare_crc, hc]
    · have hcf : (entryCrc == crc32 bytes) = false := beq_eq_false_iff_ne.mpr hc
      simp [read_to_string_crc, hv, compare_crc, hc, hcf]
  · rintro hv d rfl rfl
    by_cases hc : d.1 = crc32 bytes
    · simp [read_to_string_crc, hv, compare_crc, hc]
    · have hcf : (d.1 == crc32 bytes) = false := beq_eq_false_iff_ne.mpr hc
      simp [read_to_string_crc, hv, compare_crc, hc, hcf]

/-- Witness for `c9_read_to_string_order`: the byte `0xFF` is not valid text,
so the result is the decoding error even in the configuration (flag set, no
resolved record) where running the integrity check would panic. -/
theorem c9_read_to_string_order_witness :
    read_to_string_crc true 0 none [0xFF] = some (.error .stringDecodeError) :=
  (c9_read_to_string_order true 0 none [0xFF]).1 (by decide)

end AsyncZip
